import Mathlib

/-!
Verification of the resume retrieval service core: a shallow embedding of the
keyword, vector and hybrid search engines, the LLM re-ranker, the retrieval
pipeline, the conversational filter, and the per-conversation chat memory,
together with theorems settling the specified properties.

External collaborators (the MongoDB collection, the Atlas vector index, the
embedding provider and the chat model) are modelled as explicit inputs:
the keyword engine receives the list of documents of the collection, the
vector engine receives the ranked (document, raw cosine score) list the store
returns for the query, and each LLM call site receives the outcome of its one
chat-model invocation (a parsed response, a parse failure, or a transport
error).  Scores are exact rationals, idealising JavaScript floats.
-/

/-! ## JavaScript-style string primitives (on `List Char`) -/

/-- Lower-casing of a string, modelling `String.prototype.toLowerCase` (ASCII). -/
def strLower (s : String) : String := String.mk (s.data.map Char.toLower)

/-- Does the first character list start the second one? (`List` analogue of a
prefix test, used to model regex/substring matching.) -/
def strStarts : List Char → List Char → Bool
  | [], _ => true
  | _ :: _, [] => false
  | a :: as, b :: bs => a == b && strStarts as bs

/-- Does `needle` occur contiguously inside `hay`?  Models a (literal)
case-sensitive regex alternation hit / `String.prototype.includes`. -/
def strHasInfix (needle : List Char) : List Char → Bool
  | [] => needle.isEmpty
  | c :: rest => strStarts needle (c :: rest) || strHasInfix needle rest

/-- Index of the first occurrence of `needle` in `hay`, modelling
`String.prototype.indexOf` (`none` for -1). -/
def strIndexOf? (needle : List Char) : List Char → Option Nat
  | [] => if needle.isEmpty then some 0 else none
  | c :: rest =>
    if strStarts needle (c :: rest) then some 0
    else (strIndexOf? needle rest).map (· + 1)

/-- Models `String.prototype.trim` (whitespace from both ends). -/
def strTrim (s : String) : String :=
  String.mk (((s.data.dropWhile Char.isWhitespace).reverse.dropWhile
    Char.isWhitespace).reverse)

/-- Models `content.substring(start, stop)` for `start ≤ stop` (JS clamps to the
string bounds, which `take`/`drop` also do). -/
def strSubstring (s : String) (start stop : Nat) : String :=
  String.mk ((s.data.take stop).drop start)

/-- Auxiliary word splitter: accumulates the current word (reversed) and cuts
at whitespace runs. -/
def wordsAux : List Char → List Char → List String
  | [], current => if current.isEmpty then [] else [String.mk current.reverse]
  | c :: rest, current =>
    if c.isWhitespace then
      if current.isEmpty then wordsAux rest []
      else String.mk current.reverse :: wordsAux rest []
    else wordsAux rest (c :: current)

/-- Models `query.trim().split(/\s+/)`: JavaScript yields `[""]` on the empty string
and otherwise the whitespace-separated words. -/
def jsSplitWs (query : String) : List String :=
  let t := strTrim query
  if t = "" then [""] else wordsAux t.data []

/-- JavaScript `s || d` for strings: the empty string is falsy. -/
def jsOrS (s d : String) : String := if s = "" then d else s

/-- JavaScript `o?.toString() || d` for an optional field. -/
def jsOrOpt (o : Option String) (d : String) : String :=
  match o with
  | some s => jsOrS s d
  | none => d

/-! ## Data model -/

/-- The `matchType` tag of a search result. -/
inductive MatchType
  | keyword
  | vector
  | hybrid
  | llmReranked
deriving DecidableEq, Repr

/-- The `extractedInfo` record produced by the LLM re-ranker (all fields optional; the
zod schema normalises `skills`/`keyHighlights` to string lists). -/
structure ExtractedInfo where
  currentCompany : Option String := none
  location : Option String := none
  skills : Option (List String) := none
  experience : Option String := none
  keyHighlights : Option (List String) := none
deriving DecidableEq, Repr

/-- A search result item as produced by the engines, enriched by the
re-ranker (`llmReasoning`, `extractedInfo`) and by the retrieval pipeline
(`llmAnalysis`). -/
structure SearchResultItem where
  name : String
  email : String
  phoneNumber : String
  content : String
  score : ℚ
  matchType : MatchType
  llmReasoning : Option String := none
  extractedInfo : Option ExtractedInfo := none
  llmAnalysis : Option (String × Option ExtractedInfo) := none
deriving DecidableEq, Repr

/-- A raw MongoDB resume document as read by the keyword engine
(`doc.text || ""` etc.; `phone` may be absent, hence optional). -/
structure RawDoc where
  text : String := ""
  name : String := ""
  email : String := ""
  skills : String := ""
  role : String := ""
  company : String := ""
  phone : Option String := none
deriving DecidableEq, Repr

/-- A document returned by the vector store: LangChain `pageContent` plus the
metadata fields the vector engine reads. -/
structure VectorDoc where
  pageContent : String := ""
  name : Option String := none
  email : Option String := none
  phone : Option String := none
  phoneNumber : Option String := none
deriving DecidableEq, Repr

/-- Outcome of one chat-model invocation at a call site that parses the
response: a schema-conforming parse, an unparseable response, or a transport
error from the model. -/
inductive LLMOutcome (α : Type)
  | ok (response : α)
  | parseFailure
  | transportError (message : String)

/-! ## Keyword search engine (`KeywordSearchEngine.search`) -/

/-- Does the case-insensitive alternation regex of `tokens` hit `field`?
Models `searchRegex.test`-like matching of `new RegExp(keywords.join("|"), "i")`. -/
def regexHits (tokens : List String) (field : String) : Bool :=
  tokens.any (fun t => strHasInfix (strLower t).data (strLower field).data)

/-- Models `(field.match(searchRegex) || []).length`: the regex is built WITHOUT the
global flag, so `String.prototype.match` reports at most one match (the regex
has no capture groups, so the match array has length 1). -/
def regexMatchCount (tokens : List String) (field : String) : Nat :=
  if regexHits tokens field then 1 else 0

/-- The `$or` filter of the `collection.find` call: any of the six fields
matches the keyword regex. -/
def docMatchesFind (tokens : List String) (d : RawDoc) : Bool :=
  regexHits tokens d.text || regexHits tokens d.name || regexHits tokens d.email ||
    regexHits tokens d.skills || regexHits tokens d.role || regexHits tokens d.company

/-- The weighted raw keyword score of a document
(`contentMatches * 1.0 + nameMatches * 2.0 + emailMatches * 1.5 +
skillsMatches * 3.0 + roleMatches * 2.5`). -/
def keywordRawScore (tokens : List String) (d : RawDoc) : ℚ :=
  (regexMatchCount tokens d.text : ℚ) * 1 + (regexMatchCount tokens d.name : ℚ) * 2 +
    (regexMatchCount tokens d.email : ℚ) * (3 / 2) +
    (regexMatchCount tokens d.skills : ℚ) * 3 +
    (regexMatchCount tokens d.role : ℚ) * (5 / 2)

/-- The normalized keyword score: `Math.min(totalScore / 30, 1.0)`. -/
def keywordScoreDoc (tokens : List String) (d : RawDoc) : ℚ :=
  min (keywordRawScore tokens d / 30) 1

/-- First match position over the keyword list: the loop takes the keywords in
order and stops at the first one that occurs anywhere in the content. -/
def firstKeywordPos (kws : List (List Char)) (content : List Char) : Option Nat :=
  match kws with
  | [] => none
  | k :: rest =>
    match strIndexOf? k content with
    | some p => some p
    | none => firstKeywordPos rest content

/-- Models `KeywordSearchEngine.extractSnippet`: a window around the first keyword
match (≤ `maxLength` chars with ellipses on truncated sides), else the leading
`maxLength` chars with a trailing ellipsis. -/
def extractSnippet (content : String) (keywords : List String)
    (maxLength : Nat := 200) : String :=
  if content = "" then ""
  else
    let lowerContent := (strLower content).data
    let lowerKeywords := keywords.map (fun k => (strLower k).data)
    match firstKeywordPos lowerKeywords lowerContent with
    | none => strSubstring content 0 maxLength ++ "..."
    | some position =>
      let start := position - 50
      let stop := min content.data.length (position + maxLength - 50)
      let snippet := strSubstring content start stop
      let snippet := if 0 < start then "..." ++ snippet else snippet
      let snippet := if stop < content.data.length then snippet ++ "..." else snippet
      strTrim snippet

/-- Mapping of one found document to a scored keyword result item. -/
def keywordResultOfDoc (keywords : List String) (d : RawDoc) : SearchResultItem :=
  { name := jsOrS d.name "Unknown"
    email := jsOrS d.email "Not found"
    phoneNumber := jsOrOpt d.phone "Not found"
    content := extractSnippet d.text keywords
    score := keywordScoreDoc keywords d
    matchType := MatchType.keyword }

/-- The comparator `(a, b) => b.score - a.score` as a boolean relation. -/
def scoreDescBool (a b : SearchResultItem) : Bool := decide (b.score ≤ a.score)

/-- Models `results.sort((a, b) => b.score - a.score)`: `Array.prototype.sort` is
stable, so this is a stable sort by score descending. -/
def jsSortByScoreDesc (l : List SearchResultItem) : List SearchResultItem :=
  l.mergeSort scoreDescBool

/-- Embeds `KeywordSearchEngine.search`: the collection is queried with the `$or`
regex filter and `limit(topK * 2)`, each document is scored, and the top
`topK` by descending score are returned.  `collection` is the document list
of the backing MongoDB collection in its deterministic snapshot order. -/
def KeywordSearchEngine.search (collection : List RawDoc) (query : String)
    (topK : Nat) : List SearchResultItem :=
  let keywords := jsSplitWs query
  let documents := (collection.filter (docMatchesFind keywords)).take (topK * 2)
  let results := documents.map (keywordResultOfDoc keywords)
  (jsSortByScoreDesc results).take topK

/-! ## Vector search engine (`VectorSearchEngine.search`) -/

/-- Models `normalizeVectorScore`: clamp the raw store score to [0, 1]. -/
def normalizeVectorScore (score : ℚ) : ℚ := max 0 (min 1 score)

/-- The vector engine's `extractSnippet`: leading `maxLength` chars, trimmed,
with a trailing ellipsis when truncated. -/
def vectorSnippet (content : String) (maxLength : Nat := 200) : String :=
  if content = "" then ""
  else
    strTrim (strSubstring content 0 maxLength) ++
      (if maxLength < content.data.length then "..." else "")

/-- Embeds `VectorSearchEngine.search`: `store` is the ranked
(document, raw cosine score) list `vectorStore.searchWithScores(query, topK)`
draws from; the store honours the `topK` limit, modelled by `take`. -/
def VectorSearchEngine.search (store : List (VectorDoc × ℚ)) (topK : Nat) :
    List SearchResultItem :=
  (store.take topK).map (fun dc =>
    { name := jsOrOpt dc.1.name "Unknown"
      email := jsOrOpt dc.1.email "Not found"
      phoneNumber := jsOrOpt dc.1.phone (jsOrOpt dc.1.phoneNumber "Not found")
      content := vectorSnippet dc.1.pageContent
      score := normalizeVectorScore dc.2
      matchType := MatchType.vector })

/-! ## Hybrid search engine (`HybridSearchEngine`) -/

/-- Hybrid weights configuration. -/
structure HybridSearchConfig where
  vectorWeight : ℚ
  keywordWeight : ℚ
deriving DecidableEq, Repr

/-- Models `mergedMap.set(result.name, item)` on the insertion-ordered JS `Map`:
every insertion in `mergeResults` uses the stored item's own `name` as the
key, so the map is modelled as an insertion-ordered list of items keyed by
their `name` field; `set` replaces in place or appends. -/
def mapSet : List SearchResultItem → SearchResultItem → List SearchResultItem
  | [], v => [v]
  | e :: rest, v => if e.name = v.name then v :: rest else e :: mapSet rest v

/-- Models `mergedMap.get(name)` / `mergedMap.has(name)`. -/
def findByName (m : List SearchResultItem) (n : String) : Option SearchResultItem :=
  m.find? (fun e => e.name = n)

/-- First phase of `mergeResults`: each vector result is stored with its
weighted score and match type `hybrid`. -/
def vecMergeStep (cfg : HybridSearchConfig) (m : List SearchResultItem)
    (result : SearchResultItem) : List SearchResultItem :=
  mapSet m { result with score := result.score * cfg.vectorWeight
                         matchType := MatchType.hybrid }

/-- Second phase of `mergeResults`: a keyword result either combines with the
existing entry of the same name (adding its weighted score, keeping the longer
content snippet) or is inserted with its weighted score. -/
def kwMergeStep (cfg : HybridSearchConfig) (m : List SearchResultItem)
    (result : SearchResultItem) : List SearchResultItem :=
  let weightedScore := result.score * cfg.keywordWeight
  match findByName m result.name with
  | some existing =>
    mapSet m { existing with
      score := existing.score + weightedScore
      content :=
        if existing.content.data.length < result.content.data.length then
          result.content
        else existing.content }
  | none =>
    mapSet m { result with score := weightedScore, matchType := MatchType.hybrid }

/-- Embeds `HybridSearchEngine.mergeResults`: merge vector and keyword result lists
by candidate name with weighted scoring; returns the map's values in
insertion order. -/
def HybridSearchEngine.mergeResults (cfg : HybridSearchConfig)
    (vectorResults keywordResults : List SearchResultItem) : List SearchResultItem :=
  keywordResults.foldl (kwMergeStep cfg) (vectorResults.foldl (vecMergeStep cfg) [])

/-- Embeds `HybridSearchEngine.search`: fetch `topK * 3` from each engine (run
concurrently in the source; both are awaited, so the merge sees both result
lists), merge, sort by hybrid score descending, return the top `topK`. -/
def HybridSearchEngine.search (cfg : HybridSearchConfig)
    (collection : List RawDoc) (store : List (VectorDoc × ℚ)) (query : String)
    (topK : Nat) : List SearchResultItem :=
  let fetchSize := topK * 3
  let vectorResults := VectorSearchEngine.search store fetchSize
  let keywordResults := KeywordSearchEngine.search collection query fetchSize
  (jsSortByScoreDesc
    (HybridSearchEngine.mergeResults cfg vectorResults keywordResults)).take topK

/-! ## LLM re-ranker (`LLMReranker.rerankAndFilter`) -/

/-- One verdict of the re-rank response (`ResumeMatchSchema`). -/
structure ResumeMatch where
  name : String
  relevanceScore : ℚ
  reasoning : String
  matchesCriteria : Bool
  extractedInfo : Option ExtractedInfo := none
deriving DecidableEq, Repr

/-- The parsed re-rank response (`LLMRerankResponseSchema`); `matchList` is
the source's `matches` field (`matches` is reserved in Lean). -/
structure LLMRerankResponse where
  matchList : List ResumeMatch
  summary : String
deriving DecidableEq, Repr

/-- The zod refinement `relevanceScore: z.number().min(0).max(1)`: a response
violating it throws inside the parse `try`, i.e. behaves as a parse failure. -/
def LLMRerankResponse.schemaValid (r : LLMRerankResponse) : Bool :=
  r.matchList.all (fun m => decide (0 ≤ m.relevanceScore) && decide (m.relevanceScore ≤ 1))

/-- The analysis record returned beside the results. -/
structure RerankAnalysis where
  summary : String
  matchList : List ResumeMatch
deriving DecidableEq, Repr

/-- The fallback verdict list built from the unfiltered candidates when the
LLM interaction fails. -/
def rerankFallbackMatches (candidates : List SearchResultItem) (reason : String) :
    List ResumeMatch :=
  candidates.map (fun c =>
    { name := c.name, relevanceScore := c.score, reasoning := reason
      matchesCriteria := true })

/-- Embeds `LLMReranker.rerankAndFilter`: empty candidates short-circuit; a parse
failure, a schema violation or a transport error returns the candidates
unchanged with a fallback analysis; a valid response keeps, per verdict, the
matching candidates (located by name, skipping verdicts naming nobody),
attaches the LLM score and metadata, and sorts by the new score descending. -/
def LLMReranker.rerankAndFilter (candidates : List SearchResultItem)
    (llm : LLMOutcome LLMRerankResponse) : List SearchResultItem × RerankAnalysis :=
  if candidates.isEmpty then ([], { summary := "No candidates to analyze", matchList := [] })
  else
    match llm with
    | LLMOutcome.parseFailure =>
      (candidates,
        { summary := "Failed to parse LLM response. Returning original vector search results without filtering."
          matchList := rerankFallbackMatches candidates
            "LLM parsing failed - using original vector search score" })
    | LLMOutcome.transportError msg =>
      (candidates,
        { summary := "Error during LLM analysis: " ++ msg ++ ". Returning unfiltered results."
          matchList := rerankFallbackMatches candidates
            "Error during LLM analysis - score from vector search" })
    | LLMOutcome.ok parsed =>
      if parsed.schemaValid then
        let rerankedResults := parsed.matchList.filterMap (fun m =>
          if m.matchesCriteria then
            (candidates.find? (fun c => c.name = m.name)).map (fun c =>
              { c with score := m.relevanceScore
                       matchType := MatchType.llmReranked
                       llmReasoning := some m.reasoning
                       extractedInfo := m.extractedInfo })
          else none)
        (jsSortByScoreDesc rerankedResults,
          { summary := parsed.summary, matchList := parsed.matchList })
      else
        (candidates,
          { summary := "Failed to parse LLM response. Returning original vector search results without filtering."
            matchList := rerankFallbackMatches candidates
              "LLM parsing failed - using original vector search score" })

/-! ## Retrieval pipeline (`RetrievalPipeline.search`) -/

/-- LLM re-ranking configuration. -/
structure LLMRerankConfig where
  enabled : Bool
  retrievalTopK : Nat
deriving DecidableEq, Repr

/-- The dispatched search type. -/
inductive SearchType
  | keyword
  | vector
  | hybrid
deriving DecidableEq, Repr

/-- Stage 1 of `RetrievalPipeline.search`: retrieve `retrievalTopK`
candidates when re-ranking is enabled (else `topK`), dispatching on the
search type. -/
def pipelineStage1 (collection : List RawDoc) (store : List (VectorDoc × ℚ))
    (hybridCfg : HybridSearchConfig) (rerankCfg : LLMRerankConfig)
    (query : String) (searchType : SearchType) (topK : Nat) :
    List SearchResultItem :=
  let retrievalCount := if rerankCfg.enabled then rerankCfg.retrievalTopK else topK
  match searchType with
  | SearchType.keyword => KeywordSearchEngine.search collection query retrievalCount
  | SearchType.vector => VectorSearchEngine.search store retrievalCount
  | SearchType.hybrid =>
    HybridSearchEngine.search hybridCfg collection store query retrievalCount

/-- The per-result `llmAnalysis` attachment of the pipeline: locate the
verdict of the same name and attach its reasoning and extracted info. -/
def attachAnalysis (matchList : List ResumeMatch) (result : SearchResultItem) :
    SearchResultItem :=
  match matchList.find? (fun m => m.name = result.name) with
  | some matchInfo =>
    { result with llmAnalysis := some (matchInfo.reasoning, matchInfo.extractedInfo) }
  | none => result

/-- Stage 2 of `RetrievalPipeline.search`: when re-ranking is enabled and
stage 1 produced candidates, re-rank and filter, truncate to `topK`, and
attach the per-candidate `llmAnalysis` metadata; otherwise just truncate. -/
def pipelineStage2 (rerankCfg : LLMRerankConfig)
    (llm : LLMOutcome LLMRerankResponse) (topK : Nat)
    (results : List SearchResultItem) : List SearchResultItem :=
  if rerankCfg.enabled && !results.isEmpty then
    let rerankedData := LLMReranker.rerankAndFilter results llm
    let finalResults := rerankedData.1.take topK
    finalResults.map (attachAnalysis rerankedData.2.matchList)
  else results.take topK

/-- Embeds `RetrievalPipeline.search`: stage 1 retrieval followed by stage 2
re-ranking, truncation and metadata attachment. -/
def RetrievalPipeline.search (collection : List RawDoc)
    (store : List (VectorDoc × ℚ)) (hybridCfg : HybridSearchConfig)
    (rerankCfg : LLMRerankConfig) (llm : LLMOutcome LLMRerankResponse)
    (query : String) (searchType : SearchType) (topK : Nat) :
    List SearchResultItem :=
  pipelineStage2 rerankCfg llm topK
    (pipelineStage1 collection store hybridCfg rerankCfg query searchType topK)

/-! ## Conversational filter (`ConversationalFilter`) -/

/-- One verdict of the filter response (`FilteredResultSchema`);
`matchesFlag` is the source's `matches` field (reserved in Lean). -/
structure FilteredResult where
  name : String
  reasoning : String
  matchesFlag : Bool
deriving DecidableEq, Repr

/-- The parsed filter response (`FilterResponseSchema`; the schema has no
numeric refinements, so every representable value conforms). -/
structure FilterResponse where
  filteredResults : List FilteredResult
  summary : String
deriving DecidableEq, Repr

/-- A structured cached result as the chat endpoint stores it
(name, email, phoneNumber, score, matchType, extractedInfo, llmReasoning). -/
structure CachedResult where
  name : String
  email : String
  phoneNumber : String
  score : ℚ
  matchType : MatchType
  extractedInfo : Option ExtractedInfo := none
  llmReasoning : Option String := none
deriving DecidableEq, Repr

/-- Embeds `ConversationalFilter.filterResults`: empty cache short-circuits; a parse
failure or transport error fails open (all cached results returned); a parsed
response keeps the cached results, in their original order, whose first
verdict of the same name has `matches == true` (no verdict means dropped). -/
def ConversationalFilter.filterResults (filterCriteria : String)
    (cachedResults : List CachedResult) (llm : LLMOutcome FilterResponse) :
    List CachedResult × String :=
  if cachedResults.isEmpty then ([], "No cached results to filter")
  else
    match llm with
    | LLMOutcome.parseFailure =>
      (cachedResults, "Failed to parse filter response. Returning all cached results.")
    | LLMOutcome.transportError msg =>
      (cachedResults, "Error during filtering: " ++ msg)
    | LLMOutcome.ok parsed =>
      let filtered := cachedResults.filter (fun result =>
        match parsed.filteredResults.find? (fun fr => fr.name = result.name) with
        | some filterDecision => filterDecision.matchesFlag
        | none => false)
      (filtered, parsed.summary)

/-- The fixed filter-intent token list of `ConversationalFilter.isFilterQuery`. -/
def filterKeywords : List String :=
  ["only", "filter", "show me", "display", "from those", "from the above",
   "from previous", "from these", "among them", "out of these", "narrow down",
   "refine"]

/-- Embeds `ConversationalFilter.isFilterQuery`: case-insensitive substring test of
the fixed token list against the message. -/
def ConversationalFilter.isFilterQuery (query : String) : Bool :=
  let lowerQuery := strLower query
  filterKeywords.any (fun keyword => strHasInfix keyword.data lowerQuery.data)

/-! ## Conversation memory (`ChatMemoryManager`) -/

/-- The role of a stored chat message. -/
inductive ChatRole
  | user
  | assistant
deriving DecidableEq, Repr

/-- One stored chat message. -/
structure ChatMessage where
  role : ChatRole
  content : String
deriving DecidableEq, Repr

/-- Observable state of one `ChatMemoryManager`: the bounded message history
and the cached last search results. -/
structure ChatMemoryState where
  maxMessages : Nat
  messages : List ChatMessage
  lastSearchResults : List CachedResult
deriving DecidableEq, Repr

/-- Embeds `ChatMemoryManager.addExchange`: append the user message then the
assistant message, then trim the oldest messages while the count exceeds
`maxMessages` (`trimMessages` keeps the most recent `maxMessages`). -/
def ChatMemoryManager.addExchange (s : ChatMemoryState)
    (userInput aiOutput : String) : ChatMemoryState :=
  let ms := s.messages ++
    [{ role := ChatRole.user, content := userInput },
     { role := ChatRole.assistant, content := aiOutput }]
  { s with messages :=
      if s.maxMessages < ms.length then ms.drop (ms.length - s.maxMessages) else ms }

/-- Embeds `ChatMemoryManager.clear`: clears the message history only
(`this.memory.clear()`; the cached search results live in a separate field). -/
def ChatMemoryManager.clear (s : ChatMemoryState) : ChatMemoryState :=
  { s with messages := [] }

/-- Embeds `ChatMemoryManager.setLastSearchResults`. -/
def ChatMemoryManager.setLastSearchResults (s : ChatMemoryState)
    (results : List CachedResult) : ChatMemoryState :=
  { s with lastSearchResults := results }

/-- Embeds `ChatMemoryManager.hasSearchResults`: `lastSearchResults.length > 0`. -/
def ChatMemoryManager.hasSearchResults (s : ChatMemoryState) : Bool :=
  !s.lastSearchResults.isEmpty

/-- Embeds `ChatMemoryManager.clearSearchResults`. -/
def ChatMemoryManager.clearSearchResults (s : ChatMemoryState) : ChatMemoryState :=
  { s with lastSearchResults := [] }

/-- A freshly created conversation memory. -/
def ChatMemoryManager.initial (maxMessages : Nat) : ChatMemoryState :=
  { maxMessages := maxMessages, messages := [], lastSearchResults := [] }

/-! ## The `/chat` endpoint step (`app.post("/chat")`) -/

/-- The projection of a search result to the structured form the endpoint
caches and returns. -/
def toStructuredResult (r : SearchResultItem) : CachedResult :=
  { name := r.name, email := r.email, phoneNumber := r.phoneNumber
    score := r.score, matchType := r.matchType
    extractedInfo := r.extractedInfo, llmReasoning := r.llmReasoning }

/-- The external inputs one `/chat` request can consume: the store contents
and the outcomes of the LLM invocations of either path
(`ragResponse` is the RAG chain's generated answer text). -/
structure ChatWorld where
  collection : List RawDoc
  vectorStore : List (VectorDoc × ℚ)
  rerankLLM : LLMOutcome LLMRerankResponse
  filterLLM : LLMOutcome FilterResponse
  ragResponse : String

/-- The process configuration the `/chat` handler uses. -/
structure ChatConfig where
  hybridCfg : HybridSearchConfig
  rerankCfg : LLMRerankConfig

/-- The observable outcome of one `/chat` request. -/
structure ChatStepResult where
  state : ChatMemoryState
  response : String
  searchResults : List CachedResult
  searchType : String
  usedFilter : Bool

/-- One `/chat` request on one conversation's memory.  The filter path is
taken when the memory has cached results AND (the message matches a
filter-intent token OR the client supplied a `conversationId`); it filters the
cached results and appends the exchange without touching the cache.
Otherwise the RAG chain runs a fresh hybrid pipeline search with `topK = 10`
(the chain manager is constructed anew per request, so its internal follow-up
cache is empty and a fresh search always runs), appends the exchange, and the
structured results replace the cache. -/
def chatStep (cfg : ChatConfig) (world : ChatWorld) (s : ChatMemoryState)
    (message : String) (clientSuppliedId : Bool) : ChatStepResult :=
  let isFilter := ConversationalFilter.isFilterQuery message
  let hasCachedResults := ChatMemoryManager.hasSearchResults s
  let isExistingConversation := clientSuppliedId
  let shouldUseFilter := hasCachedResults && (isFilter || isExistingConversation)
  if shouldUseFilter then
    let fr := ConversationalFilter.filterResults message s.lastSearchResults world.filterLLM
    { state := ChatMemoryManager.addExchange s message fr.2
      response := fr.2
      searchResults := fr.1
      searchType := "filter"
      usedFilter := true }
  else
    let results := RetrievalPipeline.search world.collection world.vectorStore
      cfg.hybridCfg cfg.rerankCfg world.rerankLLM message SearchType.hybrid 10
    let structuredResults := results.map toStructuredResult
    let s1 := ChatMemoryManager.addExchange s message world.ragResponse
    { state := ChatMemoryManager.setLastSearchResults s1 structuredResults
      response := world.ragResponse
      searchResults := structuredResults
      searchType := "hybrid"
      usedFilter := false }

/-! ## Specification-side comparison definitions -/

/-- Modelled from the spec's words for claim C9: `countIn(field)` as "the
number of occurrences of any query token in that field (case-insensitive)" —
the number of positions at which some token occurs. -/
def specTokenOccurrences (tokens : List String) (field : String) : Nat :=
  ((List.range ((strLower field).data.length + 1)).filter (fun i =>
    tokens.any (fun t => strStarts (strLower t).data ((strLower field).data.drop i)))).length

/-- The spec-side raw keyword score of claim C9 (occurrence counts instead of
the code's 0/1 match counts). -/
def specKeywordRawScore (tokens : List String) (d : RawDoc) : ℚ :=
  (specTokenOccurrences tokens d.text : ℚ) * 1 +
    (specTokenOccurrences tokens d.name : ℚ) * 2 +
    (specTokenOccurrences tokens d.email : ℚ) * (3 / 2) +
    (specTokenOccurrences tokens d.skills : ℚ) * 3 +
    (specTokenOccurrences tokens d.role : ℚ) * (5 / 2)

/-- The amended indicator form of `countIn` for claim C9: 1 when some token
occurs in the field, 0 otherwise, written through the spec-side occurrence
counter. -/
def specIndicator (tokens : List String) (field : String) : ℚ :=
  if 0 < specTokenOccurrences tokens field then 1 else 0

/-- Claim-side subset of claim C6 as stated: the cached results for which SOME
verdict with the same name and `matches == true` exists. -/
def specFilterSubset (cachedResults : List CachedResult) (parsed : FilterResponse) :
    List CachedResult :=
  cachedResults.filter (fun result =>
    parsed.filteredResults.any (fun fr => decide (fr.name = result.name) && fr.matchesFlag))

/-! ## Concrete fixtures used by witnesses and counterexamples -/

/-- A cached result used by the memory counterexample. -/
def c8item : CachedResult :=
  { name := "A", email := "a@x.com", phoneNumber := "1", score := 1 / 2
    matchType := MatchType.hybrid }

/-- A memory state with one message and one cached result. -/
def c8state : ChatMemoryState :=
  { maxMessages := 10
    messages := [{ role := ChatRole.user, content := "hi" }]
    lastSearchResults := [c8item] }

/-- A search result candidate used by the fallback witness. -/
def c4cand : SearchResultItem :=
  { name := "A", email := "e", phoneNumber := "p", content := "c", score := 1 / 2
    matchType := MatchType.vector }

/-- A schema-violating re-rank response (relevance score above 1). -/
def c4bad : LLMRerankResponse :=
  { matchList := [{ name := "A", relevanceScore := 2, reasoning := "r"
                    matchesCriteria := true }]
    summary := "s" }

/-- A cached result used by the conversational-filter counterexample. -/
def c6res : CachedResult :=
  { name := "A", email := "e", phoneNumber := "p", score := 1 / 2
    matchType := MatchType.llmReranked }

/-- The cached list of the conversational-filter counterexample. -/
def c6cached : List CachedResult := [c6res]

/-- A parsed filter response with two verdicts for the same name: the first
says no, the second says yes. -/
def c6resp : FilterResponse :=
  { filteredResults :=
      [{ name := "A", reasoning := "no", matchesFlag := false },
       { name := "A", reasoning := "yes", matchesFlag := true }]
    summary := "1 of 1" }

/-- Default hybrid weights (vector 0.7, keyword 0.3). -/
def c1cfg : HybridSearchConfig := { vectorWeight := 7 / 10, keywordWeight := 3 / 10 }

/-- Vector result "A" of the merge witness (spec scenario 3). -/
def c1vA : SearchResultItem :=
  { name := "A", email := "e", phoneNumber := "p", content := "aa", score := 9 / 10
    matchType := MatchType.vector }

/-- Vector result "C" of the merge witness. -/
def c1vC : SearchResultItem :=
  { name := "C", email := "e", phoneNumber := "p", content := "cc", score := 7 / 10
    matchType := MatchType.vector }

/-- Keyword result "A" of the merge witness (longer snippet than `c1vA`). -/
def c1kA : SearchResultItem :=
  { name := "A", email := "e", phoneNumber := "p", content := "aaaa", score := 1 / 2
    matchType := MatchType.keyword }

/-- Keyword result "B" of the merge witness. -/
def c1kB : SearchResultItem :=
  { name := "B", email := "e", phoneNumber := "p", content := "bb", score := 2 / 5
    matchType := MatchType.keyword }

/-- The vector input list of the merge witness. -/
def c1vs : List SearchResultItem := [c1vA, c1vC]

/-- The keyword input list of the merge witness. -/
def c1ks : List SearchResultItem := [c1kA, c1kB]

/-- A one-field document for the keyword-score witness. -/
def c10doc : RawDoc := { text := "java" }

/-- Re-rank witness candidate "A". -/
def c3candA : SearchResultItem :=
  { name := "A", email := "ea", phoneNumber := "pa", content := "ca", score := 1 / 2
    matchType := MatchType.hybrid }

/-- Re-rank witness candidate "B". -/
def c3candB : SearchResultItem :=
  { name := "B", email := "eb", phoneNumber := "pb", content := "cb", score := 2 / 5
    matchType := MatchType.hybrid }

/-- Re-rank witness candidate "C". -/
def c3candC : SearchResultItem :=
  { name := "C", email := "ec", phoneNumber := "pc", content := "cc", score := 3 / 5
    matchType := MatchType.hybrid }

/-- The candidate list of the re-rank witness. -/
def c3cands : List SearchResultItem := [c3candA, c3candB, c3candC]

/-- A valid re-rank response keeping "A" (0.9) and "C" (0.7), dropping "B". -/
def c3resp : LLMRerankResponse :=
  { matchList :=
      [{ name := "A", relevanceScore := 9 / 10, reasoning := "ra", matchesCriteria := true },
       { name := "B", relevanceScore := 1 / 5, reasoning := "rb", matchesCriteria := false },
       { name := "C", relevanceScore := 7 / 10, reasoning := "rc", matchesCriteria := true }]
    summary := "2 of 3" }

/-- A document whose text contains the query token twice. -/
def c9doc : RawDoc := { text := "java java" }

/-- A document matching "java" in all five scored fields (raw score 10). -/
def c2doc : RawDoc :=
  { text := "java", name := "java", email := "java", skills := "java", role := "java" }

/-- Four duplicate-name copies of `c2doc` (resumes sharing one name). -/
def c2coll : List RawDoc := [c2doc, c2doc, c2doc, c2doc]

/-- The vector-store document of the score-overflow counterexample. -/
def c2vdoc : VectorDoc := { pageContent := "java", name := some "java" }

/-- A vector store returning "java" with perfect cosine score. -/
def c2store : List (VectorDoc × ℚ) := [(c2vdoc, 1)]

/-- Re-ranking disabled with the default retrieval top-K. -/
def c2rerankCfg : LLMRerankConfig := { enabled := false, retrievalTopK := 10 }

/-! ## Helper lemmas -/

theorem scoreDescBool_trans (a b c : SearchResultItem)
    (h1 : scoreDescBool a b = true) (h2 : scoreDescBool b c = true) :
    scoreDescBool a c = true := by
  simp only [scoreDescBool, decide_eq_true_eq] at *
  exact le_trans h2 h1

theorem scoreDescBool_total (a b : SearchResultItem) :
    (scoreDescBool a b || scoreDescBool b a) = true := by
  simp only [scoreDescBool, Bool.or_eq_true, decide_eq_true_eq]
  exact le_total b.score a.score

theorem jsSort_perm (l : List SearchResultItem) :
    (jsSortByScoreDesc l).Perm l :=
  List.mergeSort_perm l scoreDescBool

theorem jsSort_sorted (l : List SearchResultItem) :
    (jsSortByScoreDesc l).Pairwise (fun a b => b.score ≤ a.score) := by
  have h := List.sorted_mergeSort scoreDescBool_trans scoreDescBool_total l
  exact h.imp (fun hab => by
    simpa [scoreDescBool, decide_eq_true_eq] using hab)

theorem mem_jsSort {a : SearchResultItem} {l : List SearchResultItem} :
    a ∈ jsSortByScoreDesc l ↔ a ∈ l :=
  (jsSort_perm l).mem_iff

theorem addExchange_maxMessages (s : ChatMemoryState) (u a : String) :
    (ChatMemoryManager.addExchange s u a).maxMessages = s.maxMessages := rfl

theorem addExchange_lastSearchResults (s : ChatMemoryState) (u a : String) :
    (ChatMemoryManager.addExchange s u a).lastSearchResults = s.lastSearchResults := rfl

theorem addExchange_length_le_max (s : ChatMemoryState) (u a : String) :
    (ChatMemoryManager.addExchange s u a).messages.length ≤ s.maxMessages := by
  simp only [ChatMemoryManager.addExchange, List.length_append]
  by_cases h : s.maxMessages < s.messages.length + 2 <;>
    simp [h, List.length_drop] <;> omega

theorem runExchanges_le (exs : List (String × String)) (s : ChatMemoryState)
    (h : s.messages.length ≤ s.maxMessages) :
    ((exs.foldl (fun t p => ChatMemoryManager.addExchange t p.1 p.2) s).messages.length ≤
      s.maxMessages) := by
  induction exs generalizing s with
  | nil => exact h
  | cons p rest ih =>
    have h1 := ih (ChatMemoryManager.addExchange s p.1 p.2)
      (by rw [addExchange_maxMessages]; exact addExchange_length_le_max s p.1 p.2)
    rw [addExchange_maxMessages] at h1
    exact h1

/-- C7: for every capacity `N` and every sequence of `addExchange` calls on a
fresh memory, the message count never exceeds `N` (any sequence covers all of
its prefixes); and on a full 4-message history with capacity 4, one more
exchange evicts messages 0 and 1 (FIFO) and places the new user/assistant pair
at positions 2 and 3. -/
theorem claim_C7_memory_bound :
    (∀ (maxMessages : Nat) (exs : List (String × String)),
      ((exs.foldl (fun t p => ChatMemoryManager.addExchange t p.1 p.2)
        (ChatMemoryManager.initial maxMessages)).messages.length ≤ maxMessages)) ∧
    (∀ (m0 m1 m2 m3 : ChatMessage) (u a : String) (cache : List CachedResult),
      (ChatMemoryManager.addExchange
        { maxMessages := 4, messages := [m0, m1, m2, m3], lastSearchResults := cache }
        u a).messages =
      [m2, m3, { role := ChatRole.user, content := u },
        { role := ChatRole.assistant, content := a }]) := by
  constructor
  · intro maxMessages exs
    exact runExchanges_le exs (ChatMemoryManager.initial maxMessages) (by simp [ChatMemoryManager.initial])
  · intro m0 m1 m2 m3 u a cache
    rfl

/-- C8 counterexample: on a state holding one cached result, `clear` empties
the message history but `hasSearchResults` still reports `true`, refuting the
claim that the clear operation also empties the cached last-results list. -/
theorem claim_C8_counterexample :
    (ChatMemoryManager.clear c8state).messages = [] ∧
    ChatMemoryManager.hasSearchResults (ChatMemoryManager.clear c8state) = true :=
  ⟨rfl, rfl⟩

/-- C8 amended: `clear` empties only the message history and leaves the
cached last-results list unchanged; emptying the cache requires the separate
`clearSearchResults` operation, after which `hasSearchResults` is false (and
performing both empties both). -/
theorem claim_C8_amended (s : ChatMemoryState) :
    (ChatMemoryManager.clear s).messages = [] ∧
    (ChatMemoryManager.clear s).lastSearchResults = s.lastSearchResults ∧
    (ChatMemoryManager.clearSearchResults s).lastSearchResults = [] ∧
    (ChatMemoryManager.clearSearchResults (ChatMemoryManager.clear s)).messages = [] ∧
    ChatMemoryManager.hasSearchResults
      (ChatMemoryManager.clearSearchResults (ChatMemoryManager.clear s)) = false :=
  ⟨rfl, rfl, rfl, rfl, rfl⟩

/-- C5: one `/chat` request takes the conversational-filter path exactly when
the memory has cached results and (the message contains a filter-intent token
case-insensitively or the client supplied a conversationId); a filter request
leaves the cache unchanged, and a non-filter request replaces the cache with
the structured results of the fresh hybrid pipeline retrieval, so the cache
always holds the most recent non-filter retrieval. -/
theorem claim_C5_filter_path (cfg : ChatConfig) (world : ChatWorld)
    (s : ChatMemoryState) (message : String) (clientSuppliedId : Bool) :
    (chatStep cfg world s message clientSuppliedId).usedFilter =
      (ChatMemoryManager.hasSearchResults s &&
        (ConversationalFilter.isFilterQuery message || clientSuppliedId)) ∧
    (chatStep cfg world s message clientSuppliedId).state.lastSearchResults =
      (if (chatStep cfg world s message clientSuppliedId).usedFilter then
        s.lastSearchResults
      else
        (RetrievalPipeline.search world.collection world.vectorStore cfg.hybridCfg
          cfg.rerankCfg world.rerankLLM message SearchType.hybrid 10).map
          toStructuredResult) := by
  by_cases h : (ChatMemoryManager.hasSearchResults s &&
      (ConversationalFilter.isFilterQuery message || clientSuppliedId)) = true
  · constructor
    · simp only [chatStep, h, if_true]
    · simp only [chatStep, h, if_true]
      exact addExchange_lastSearchResults s message _
  · rw [Bool.not_eq_true] at h
    constructor
    · simp only [chatStep, h, Bool.false_eq_true, if_false]
    · simp only [chatStep, h, Bool.false_eq_true, if_false,
        ChatMemoryManager.setLastSearchResults]

/-- C4: on a parse failure, a schema-violating response, or a transport error
from the chat model, both the LLM re-ranker and the conversational filter
return the input candidate list unchanged (nobody is dropped), and their
summaries report the fallback. -/
theorem claim_C4_fail_open (candidates : List SearchResultItem)
    (cached : List CachedResult) (criteria msg : String)
    (bad : LLMRerankResponse) (hbad : bad.schemaValid = false) :
    (LLMReranker.rerankAndFilter candidates LLMOutcome.parseFailure).1 = candidates ∧
    (LLMReranker.rerankAndFilter candidates (LLMOutcome.transportError msg)).1 = candidates ∧
    (LLMReranker.rerankAndFilter candidates (LLMOutcome.ok bad)).1 = candidates ∧
    (ConversationalFilter.filterResults criteria cached LLMOutcome.parseFailure).1 = cached ∧
    (ConversationalFilter.filterResults criteria cached (LLMOutcome.transportError msg)).1 = cached ∧
    (candidates ≠ [] →
      (LLMReranker.rerankAndFilter candidates LLMOutcome.parseFailure).2.summary =
        "Failed to parse LLM response. Returning original vector search results without filtering.") ∧
    (candidates ≠ [] →
      (LLMReranker.rerankAndFilter candidates (LLMOutcome.transportError msg)).2.summary =
        "Error during LLM analysis: " ++ msg ++ ". Returning unfiltered results.") ∧
    (cached ≠ [] →
      (ConversationalFilter.filterResults criteria cached LLMOutcome.parseFailure).2 =
        "Failed to parse filter response. Returning all cached results.") := by
  by_cases hc : candidates.isEmpty
  · have hnil : candidates = [] := List.isEmpty_iff.mp hc
    by_cases hd : cached.isEmpty
    · have hdnil : cached = [] := List.isEmpty_iff.mp hd
      subst hnil hdnil
      simp [LLMReranker.rerankAndFilter, ConversationalFilter.filterResults]
    · subst hnil
      simp [LLMReranker.rerankAndFilter, ConversationalFilter.filterResults, hd]
  · by_cases hd : cached.isEmpty
    · have hdnil : cached = [] := List.isEmpty_iff.mp hd
      subst hdnil
      simp [LLMReranker.rerankAndFilter, ConversationalFilter.filterResults, hc, hbad]
    · simp [LLMReranker.rerankAndFilter, ConversationalFilter.filterResults, hc, hd, hbad]

/-- C4 witness at concrete inputs: the schema-violating response and a parse
failure both leave the one-candidate lists untouched. -/
theorem claim_C4_witness :
    c4bad.schemaValid = false ∧
    (LLMReranker.rerankAndFilter [c4cand] (LLMOutcome.ok c4bad)).1 = [c4cand] ∧
    (ConversationalFilter.filterResults "only A" [c8item] LLMOutcome.parseFailure).1 =
      [c8item] := by
  have hbad : c4bad.schemaValid = false := by with_unfolding_all decide
  exact ⟨hbad,
    (claim_C4_fail_open [c4cand] [c8item] "only A" "boom" c4bad hbad).2.2.1,
    (claim_C4_fail_open [c4cand] [c8item] "only A" "boom" c4bad hbad).2.2.2.1⟩

/-- C6 counterexample: with cached result "A" and a parsed response carrying
two verdicts for "A" (first `matches = false`, then `matches = true`), the
code returns the empty list, while the claimed subset — results for which a
verdict with the same name and `matches == true` exists — is the full cached
list. -/
theorem claim_C6_counterexample :
    (ConversationalFilter.filterResults "crit" c6cached (LLMOutcome.ok c6resp)).1 = [] ∧
    specFilterSubset c6cached c6resp = c6cached := by
  constructor <;> with_unfolding_all rfl

/-- C6 amended: for every successfully parsed response, the returned list is
the subset of the cached results, in their original order, whose FIRST
verdict of the same name has `matches == true`. -/
theorem claim_C6_amended (criteria : String) (cached : List CachedResult)
    (parsed : FilterResponse) :
    ((ConversationalFilter.filterResults criteria cached (LLMOutcome.ok parsed)).1).Sublist
      cached ∧
    (∀ res, res ∈ (ConversationalFilter.filterResults criteria cached (LLMOutcome.ok parsed)).1 ↔
      (res ∈ cached ∧ ∃ fr,
        parsed.filteredResults.find? (fun x => x.name = res.name) = some fr ∧
        fr.matchesFlag = true)) := by
  by_cases hc : cached.isEmpty
  · have hnil : cached = [] := List.isEmpty_iff.mp hc
    subst hnil
    simp [ConversationalFilter.filterResults]
  · constructor
    · simp only [ConversationalFilter.filterResults, hc, Bool.false_eq_true, if_false]
      exact List.filter_sublist cached
    · intro res
      simp only [ConversationalFilter.filterResults, hc, Bool.false_eq_true, if_false,
        List.mem_filter]
      constructor
      · rintro ⟨hmem, hp⟩
        refine ⟨hmem, ?_⟩
        rcases hfind : parsed.filteredResults.find? (fun x => x.name = res.name) with _ | fr
        · rw [hfind] at hp; exact absurd hp (by simp)
        · rw [hfind] at hp; exact ⟨fr, hfind, hp⟩
      · rintro ⟨hmem, fr, hfind, hflag⟩
        exact ⟨hmem, by rw [hfind]; exact hflag⟩

theorem findByName_mapSet_self (m : List SearchResultItem) (v : SearchResultItem) :
    findByName (mapSet m v) v.name = some v := by
  induction m with
  | nil => simp [mapSet, findByName]
  | cons e rest ih =>
    by_cases h : e.name = v.name
    · simp [mapSet, findByName, h]
    · simp only [mapSet, h, if_false]
      simpa [findByName, List.find?_cons, h] using ih

theorem findByName_mapSet_ne (m : List SearchResultItem) (v : SearchResultItem)
    (n : String) (h : n ≠ v.name) :
    findByName (mapSet m v) n = findByName m n := by
  induction m with
  | nil =>
    have hvn : ¬(v.name = n) := fun hh => h hh.symm
    simp [mapSet, findByName, hvn]
  | cons e rest ih =>
    by_cases he : e.name = v.name
    · simp only [mapSet, he, if_true]
      have hvn : ¬(v.name = n) := fun hh => h hh.symm
      have hen : ¬(e.name = n) := by rw [he]; exact hvn
      simp [findByName, List.find?_cons, hvn, hen]
    · simp only [mapSet, he, if_false]
      by_cases hen : e.name = n
      · simp [findByName, List.find?_cons, hen]
      · simp only [findByName, List.find?_cons, hen, decide_False]
        simpa [findByName] using ih

theorem mem_mapSet {m : List SearchResultItem} {v it : SearchResultItem}
    (h : it ∈ mapSet m v) : it = v ∨ it ∈ m := by
  induction m with
  | nil => simpa [mapSet] using h
  | cons e rest ih =>
    by_cases he : e.name = v.name
    · simp only [mapSet, he, if_true, List.mem_cons] at h
      rcases h with h | h
      · exact Or.inl h
      · exact Or.inr (List.mem_cons_of_mem e h)
    · simp only [mapSet, he, if_false, List.mem_cons] at h
      rcases h with h | h
      · exact Or.inr (h ▸ List.mem_cons_self e rest)
      · rcases ih h with h' | h'
        · exact Or.inl h'
        · exact Or.inr (List.mem_cons_of_mem e h')

theorem name_mem_mapSet {m : List SearchResultItem} {v : SearchResultItem} {n : String}
    (h : n ∈ (mapSet m v).map SearchResultItem.name) :
    n = v.name ∨ n ∈ m.map SearchResultItem.name := by
  rcases List.mem_map.mp h with ⟨it, hit, hn⟩
  rcases mem_mapSet hit with h' | h'
  · exact Or.inl (by rw [← hn, h'])
  · exact Or.inr (List.mem_map.mpr ⟨it, h', hn⟩)

theorem mapSet_names_nodup {m : List SearchResultItem} (v : SearchResultItem)
    (h : (m.map SearchResultItem.name).Nodup) :
    ((mapSet m v).map SearchResultItem.name).Nodup := by
  induction m with
  | nil => simp [mapSet]
  | cons e rest ih =>
    simp only [List.map_cons, List.nodup_cons] at h
    by_cases he : e.name = v.name
    · simp only [mapSet, he, if_true, List.map_cons, List.nodup_cons]
      exact ⟨by rw [← he]; exact h.1, h.2⟩
    · simp only [mapSet, he, if_false, List.map_cons, List.nodup_cons]
      refine ⟨fun hmem => ?_, ih h.2⟩
      rcases name_mem_mapSet hmem with h' | h'
      · exact he h'
      · exact h.1 h'

theorem findByName_self_of_nodup {m : List SearchResultItem} {it : SearchResultItem}
    (h : (m.map SearchResultItem.name).Nodup) (hit : it ∈ m) :
    findByName m it.name = some it := by
  induction m with
  | nil => simp at hit
  | cons e rest ih =>
    simp only [List.map_cons, List.nodup_cons] at h
    rcases List.mem_cons.mp hit with h' | h'
    · subst h'
      simp [findByName, List.find?_cons]
    · have hne : ¬(e.name = it.name) := by
        intro hh
        exact h.1 (hh ▸ List.mem_map.mpr ⟨it, h', rfl⟩)
      simp only [findByName, List.find?_cons, hne, decide_False]
      exact ih h.2 h'

theorem vecFold_untouched (cfg : HybridSearchConfig) (vs : List SearchResultItem)
    (m : List SearchResultItem) (n : String)
    (h : n ∉ vs.map SearchResultItem.name) :
    findByName (vs.foldl (vecMergeStep cfg) m) n = findByName m n := by
  induction vs generalizing m with
  | nil => rfl
  | cons v rest ih =>
    simp only [List.map_cons, List.mem_cons, not_or] at h
    rw [List.foldl_cons, ih _ h.2]
    exact findByName_mapSet_ne m _ n h.1

theorem vecFold_find (cfg : HybridSearchConfig) {vs : List SearchResultItem}
    (m : List SearchResultItem) {v : SearchResultItem}
    (hv : (vs.map SearchResultItem.name).Nodup) (hmem : v ∈ vs) :
    findByName (vs.foldl (vecMergeStep cfg) m) v.name =
      some { v with score := v.score * cfg.vectorWeight
                    matchType := MatchType.hybrid } := by
  induction vs generalizing m with
  | nil => simp at hmem
  | cons w rest ih =>
    simp only [List.map_cons, List.nodup_cons] at hv
    rcases List.mem_cons.mp hmem with h' | h'
    · subst h'
      rw [List.foldl_cons, vecFold_untouched cfg rest _ v.name hv.1]
      exact findByName_mapSet_self m _
    · rw [List.foldl_cons]
      exact ih _ hv.2 h'

theorem mem_vecFold (cfg : HybridSearchConfig) {vs : List SearchResultItem}
    {m : List SearchResultItem} {it : SearchResultItem}
    (h : it ∈ vs.foldl (vecMergeStep cfg) m) :
    it ∈ m ∨ ∃ v ∈ vs,
      it = { v with score := v.score * cfg.vectorWeight,
                    matchType := MatchType.hybrid } := by
  induction vs generalizing m with
  | nil => exact Or.inl h
  | cons v rest ih =>
    rw [List.foldl_cons] at h
    rcases ih h with h' | h'
    · rcases mem_mapSet h' with h'' | h''
      · exact Or.inr ⟨v, List.mem_cons_self v rest, h''⟩
      · exact Or.inl h''
    · rcases h' with ⟨w, hw, hit⟩
      exact Or.inr ⟨w, List.mem_cons_of_mem v hw, hit⟩

theorem vecFold_names_nodup (cfg : HybridSearchConfig) (vs : List SearchResultItem)
    {m : List SearchResultItem} (h : (m.map SearchResultItem.name).Nodup) :
    (((vs.foldl (vecMergeStep cfg) m)).map SearchResultItem.name).Nodup := by
  induction vs generalizing m with
  | nil => exact h
  | cons v rest ih =>
    rw [List.foldl_cons]
    exact ih (mapSet_names_nodup _ h)

theorem kwStep_find_combine (cfg : HybridSearchConfig) {m : List SearchResultItem}
    {k e : SearchResultItem} (hfind : findByName m k.name = some e) :
    findByName (kwMergeStep cfg m k) k.name =
      some { e with
        score := e.score + k.score * cfg.keywordWeight
        content :=
          if e.content.data.length < k.content.data.length then k.content
          else e.content } := by
  have hname : e.name = k.name := by
    have := List.find?_some hfind
    simpa using this
  simp only [kwMergeStep, hfind]
  rw [← hname]
  exact findByName_mapSet_self m _

theorem kwStep_find_insert (cfg : HybridSearchConfig) {m : List SearchResultItem}
    {k : SearchResultItem} (hfind : findByName m k.name = none) :
    findByName (kwMergeStep cfg m k) k.name =
      some { k with score := k.score * cfg.keywordWeight
                    matchType := MatchType.hybrid } := by
  simp only [kwMergeStep, hfind]
  exact findByName_mapSet_self m _

theorem kwStep_find_ne (cfg : HybridSearchConfig) (m : List SearchResultItem)
    (k : SearchResultItem) (n : String) (h : n ≠ k.name) :
    findByName (kwMergeStep cfg m k) n = findByName m n := by
  rcases hfind : findByName m k.name with _ | e
  · simp only [kwMergeStep, hfind]
    exact findByName_mapSet_ne m _ n h
  · have hname : e.name = k.name := by
      have := List.find?_some hfind
      simpa using this
    simp only [kwMergeStep, hfind]
    refine findByName_mapSet_ne m _ n ?_
    simpa [hname] using h

theorem kwFold_untouched (cfg : HybridSearchConfig) (ks : List SearchResultItem)
    (m : List SearchResultItem) (n : String)
    (h : n ∉ ks.map SearchResultItem.name) :
    findByName (ks.foldl (kwMergeStep cfg) m) n = findByName m n := by
  induction ks generalizing m with
  | nil => rfl
  | cons k rest ih =>
    simp only [List.map_cons, List.mem_cons, not_or] at h
    rw [List.foldl_cons, ih _ h.2]
    exact kwStep_find_ne cfg m k n h.1

theorem kwFold_find (cfg : HybridSearchConfig) {ks : List SearchResultItem}
    (m : List SearchResultItem) {k : SearchResultItem}
    (hk : (ks.map SearchResultItem.name).Nodup) (hmem : k ∈ ks) :
    findByName (ks.foldl (kwMergeStep cfg) m) k.name =
      some (match findByName m k.name with
        | some e =>
          { e with
            score := e.score + k.score * cfg.keywordWeight
            content :=
              if e.content.data.length < k.content.data.length then k.content
              else e.content }
        | none =>
          { k with score := k.score * cfg.keywordWeight
                   matchType := MatchType.hybrid }) := by
  induction ks generalizing m with
  | nil => simp at hmem
  | cons w rest ih =>
    simp only [List.map_cons, List.nodup_cons] at hk
    rcases List.mem_cons.mp hmem with h' | h'
    · subst h'
      rw [List.foldl_cons, kwFold_untouched cfg rest _ k.name hk.1]
      rcases hfind : findByName m k.name with _ | e
      · exact kwStep_find_insert cfg hfind
      · exact kwStep_find_combine cfg hfind
    · have hwn : w.name ≠ k.name := by
        intro hh
        exact hk.1 (hh ▸ List.mem_map.mpr ⟨k, h', rfl⟩)
      rw [List.foldl_cons]
      have := ih (kwMergeStep cfg m w) hk.2 h'
      rwa [kwStep_find_ne cfg m w k.name (fun hh => hwn hh.symm)] at this

theorem kwFold_names_nodup (cfg : HybridSearchConfig) (ks : List SearchResultItem)
    {m : List SearchResultItem} (h : (m.map SearchResultItem.name).Nodup) :
    (((ks.foldl (kwMergeStep cfg) m)).map SearchResultItem.name).Nodup := by
  induction ks generalizing m with
  | nil => exact h
  | cons k rest ih =>
    rw [List.foldl_cons]
    refine ih ?_
    rcases hfind : findByName m k.name with _ | e <;>
      simp only [kwMergeStep, hfind] <;> exact mapSet_names_nodup _ h

/-- C1: in a hybrid merge with distinct names within each input list, a
document found in both inputs gets score `v.score·w_v + k.score·w_k` and the
longer of the two content snippets; a document only in the vector input gets
`v.score·w_v`; a document only in the keyword input gets `k.score·w_k`. -/
theorem claim_C1_hybrid_merge (cfg : HybridSearchConfig)
    (vs ks : List SearchResultItem)
    (hv : (vs.map SearchResultItem.name).Nodup)
    (hk : (ks.map SearchResultItem.name).Nodup) :
    (∀ v ∈ vs, ∀ k ∈ ks, v.name = k.name →
      ∃ it, findByName (HybridSearchEngine.mergeResults cfg vs ks) v.name = some it ∧
        it.score = v.score * cfg.vectorWeight + k.score * cfg.keywordWeight ∧
        it.content =
          (if v.content.data.length < k.content.data.length then k.content
           else v.content)) ∧
    (∀ v ∈ vs, v.name ∉ ks.map SearchResultItem.name →
      ∃ it, findByName (HybridSearchEngine.mergeResults cfg vs ks) v.name = some it ∧
        it.score = v.score * cfg.vectorWeight) ∧
    (∀ k ∈ ks, k.name ∉ vs.map SearchResultItem.name →
      ∃ it, findByName (HybridSearchEngine.mergeResults cfg vs ks) k.name = some it ∧
        it.score = k.score * cfg.keywordWeight) := by
  refine ⟨?_, ?_, ?_⟩
  · intro v hvmem k hkmem hname
    have hp1 : findByName (vs.foldl (vecMergeStep cfg) []) v.name =
        some { v with score := v.score * cfg.vectorWeight
                      matchType := MatchType.hybrid } :=
      vecFold_find cfg [] hv hvmem
    have h2 := kwFold_find cfg (vs.foldl (vecMergeStep cfg) []) hk hkmem
    rw [← hname, hp1] at h2
    exact ⟨_, h2, rfl, rfl⟩
  · intro v hvmem hnot
    have hp1 : findByName (vs.foldl (vecMergeStep cfg) []) v.name =
        some { v with score := v.score * cfg.vectorWeight
                      matchType := MatchType.hybrid } :=
      vecFold_find cfg [] hv hvmem
    have h2 := kwFold_untouched cfg ks (vs.foldl (vecMergeStep cfg) []) v.name hnot
    rw [hp1] at h2
    exact ⟨_, h2, rfl⟩
  · intro k hkmem hnot
    have hp1 : findByName (vs.foldl (vecMergeStep cfg) []) k.name = none := by
      rw [vecFold_untouched cfg vs [] k.name hnot]; rfl
    have h2 := kwFold_find cfg (vs.foldl (vecMergeStep cfg) []) hk hkmem
    rw [hp1] at h2
    exact ⟨_, h2, rfl⟩

/-- C1 witness: the concrete merge of spec scenario 3 — "A" in both inputs
scores `0.9·0.7 + 0.5·0.3` and keeps the longer keyword snippet, "C" only in
the vector input scores `0.7·0.7`, "B" only in the keyword input scores
`0.4·0.3`. -/
theorem claim_C1_witness :
    ((c1vs.map SearchResultItem.name).Nodup ∧
      (c1ks.map SearchResultItem.name).Nodup) ∧
    (∃ it, findByName (HybridSearchEngine.mergeResults c1cfg c1vs c1ks) "A" = some it ∧
      it.score = (9 : ℚ) / 10 * (7 / 10) + (1 : ℚ) / 2 * (3 / 10) ∧
      it.content = "aaaa") ∧
    (∃ it, findByName (HybridSearchEngine.mergeResults c1cfg c1vs c1ks) "C" = some it ∧
      it.score = (7 : ℚ) / 10 * (7 / 10)) ∧
    (∃ it, findByName (HybridSearchEngine.mergeResults c1cfg c1vs c1ks) "B" = some it ∧
      it.score = (2 : ℚ) / 5 * (3 / 10)) := by
  have hv : (c1vs.map SearchResultItem.name).Nodup := by decide
  have hk : (c1ks.map SearchResultItem.name).Nodup := by decide
  have h := claim_C1_hybrid_merge c1cfg c1vs c1ks hv hk
  refine ⟨⟨hv, hk⟩, ?_, ?_, ?_⟩
  · obtain ⟨it, hf, hs, hc⟩ := h.1 c1vA (by with_unfolding_all decide) c1kA (by with_unfolding_all decide) rfl
    refine ⟨it, hf, hs, ?_⟩
    rw [hc]
    decide
  · obtain ⟨it, hf, hs⟩ := h.2.1 c1vC (by with_unfolding_all decide) (by decide)
    exact ⟨it, hf, hs⟩
  · obtain ⟨it, hf, hs⟩ := h.2.2 c1kB (by with_unfolding_all decide) (by decide)
    exact ⟨it, hf, hs⟩

theorem regexMatchCount_le_one (tokens : List String) (field : String) :
    regexMatchCount tokens field ≤ 1 := by
  unfold regexMatchCount
  split <;> simp

theorem regexMatchCount_cast_nonneg (tokens : List String) (field : String) :
    (0 : ℚ) ≤ (regexMatchCount tokens field : ℚ) := by positivity

theorem regexMatchCount_cast_le_one (tokens : List String) (field : String) :
    ((regexMatchCount tokens field : ℚ)) ≤ 1 := by
  exact_mod_cast regexMatchCount_le_one tokens field

theorem keywordRawScore_nonneg (tokens : List String) (d : RawDoc) :
    0 ≤ keywordRawScore tokens d := by
  unfold keywordRawScore
  have h1 := regexMatchCount_cast_nonneg tokens d.text
  have h2 := regexMatchCount_cast_nonneg tokens d.name
  have h3 := regexMatchCount_cast_nonneg tokens d.email
  have h4 := regexMatchCount_cast_nonneg tokens d.skills
  have h5 := regexMatchCount_cast_nonneg tokens d.role
  nlinarith

theorem keywordRawScore_le_ten (tokens : List String) (d : RawDoc) :
    keywordRawScore tokens d ≤ 10 := by
  unfold keywordRawScore
  have h1 := regexMatchCount_cast_le_one tokens d.text
  have h2 := regexMatchCount_cast_le_one tokens d.name
  have h3 := regexMatchCount_cast_le_one tokens d.email
  have h4 := regexMatchCount_cast_le_one tokens d.skills
  have h5 := regexMatchCount_cast_le_one tokens d.role
  have g1 := regexMatchCount_cast_nonneg tokens d.text
  have g2 := regexMatchCount_cast_nonneg tokens d.name
  have g3 := regexMatchCount_cast_nonneg tokens d.email
  have g4 := regexMatchCount_cast_nonneg tokens d.skills
  have g5 := regexMatchCount_cast_nonneg tokens d.role
  nlinarith

theorem keywordScoreDoc_nonneg (tokens : List String) (d : RawDoc) :
    0 ≤ keywordScoreDoc tokens d := by
  unfold keywordScoreDoc
  refine le_min ?_ zero_le_one
  have := keywordRawScore_nonneg tokens d
  positivity

theorem keywordScoreDoc_le_one (tokens : List String) (d : RawDoc) :
    keywordScoreDoc tokens d ≤ 1 :=
  min_le_right _ _

theorem keywordScoreDoc_le_third (tokens : List String) (d : RawDoc) :
    keywordScoreDoc tokens d ≤ 10 / 30 := by
  unfold keywordScoreDoc
  refine le_trans (min_le_left _ _) ?_
  have h := keywordRawScore_le_ten tokens d
  linarith

theorem mem_keywordSearch {collection : List RawDoc} {query : String} {k : Nat}
    {it : SearchResultItem} (h : it ∈ KeywordSearchEngine.search collection query k) :
    ∃ d ∈ collection, it = keywordResultOfDoc (jsSplitWs query) d := by
  unfold KeywordSearchEngine.search at h
  have h1 := List.take_subset k _ h
  rw [mem_jsSort] at h1
  rcases List.mem_map.mp h1 with ⟨d, hd, rfl⟩
  have h2 := List.take_subset _ _ hd
  exact ⟨d, (List.mem_filter.mp h2).1, rfl⟩

/-- C10: each field's keyword match count is at most 1 (the search regex has
no global flag), hence the raw keyword score is at most 10 and every keyword
search result's normalized score is at most 10/30. -/
theorem claim_C10_match_cap :
    (∀ (tokens : List String) (field : String), regexMatchCount tokens field ≤ 1) ∧
    (∀ (tokens : List String) (d : RawDoc), keywordRawScore tokens d ≤ 10) ∧
    (∀ (collection : List RawDoc) (query : String) (k : Nat) (it : SearchResultItem),
      it ∈ KeywordSearchEngine.search collection query k → it.score ≤ 10 / 30) := by
  refine ⟨regexMatchCount_le_one, keywordRawScore_le_ten, ?_⟩
  intro collection query k it h
  rcases mem_keywordSearch h with ⟨d, _, rfl⟩
  exact keywordScoreDoc_le_third _ d

/-- C10 witness: the search over one matching document yields an item whose
score is bounded by 10/30. -/
theorem claim_C10_witness :
    (keywordResultOfDoc (jsSplitWs "java") c10doc) ∈
      KeywordSearchEngine.search [c10doc] "java" 1 ∧
    (keywordResultOfDoc (jsSplitWs "java") c10doc).score ≤ 10 / 30 := by
  have hmem : (keywordResultOfDoc (jsSplitWs "java") c10doc) ∈
      KeywordSearchEngine.search [c10doc] "java" 1 := by
    with_unfolding_all decide
  exact ⟨hmem, claim_C10_match_cap.2.2 [c10doc] "java" 1 _ hmem⟩

theorem filterMap_length_eq {α β : Type} (f : α → Option β) (l : List α) :
    (l.filterMap f).length = (l.filter (fun a => (f a).isSome)).length := by
  induction l with
  | nil => rfl
  | cons a rest ih =>
    rcases hfa : f a with _ | b <;>
      simp [List.filterMap_cons, List.filter_cons, hfa, ih]

/-- C3: on a successfully parsed, schema-valid response, every returned item
comes from an input candidate (same identity fields) named by a matching
verdict, carries `score = relevanceScore` and `matchType = llm-reranked`;
exactly the `matchesCriteria` verdicts naming an input candidate contribute a
result (verdicts naming nobody are ignored); and the output is sorted by the
new score descending. -/
theorem claim_C3_rerank_subset (candidates : List SearchResultItem)
    (parsed : LLMRerankResponse) (hvalid : parsed.schemaValid = true) :
    (∀ it ∈ (LLMReranker.rerankAndFilter candidates (LLMOutcome.ok parsed)).1,
      ∃ c ∈ candidates, ∃ m ∈ parsed.matchList,
        m.matchesCriteria = true ∧ m.name = c.name ∧ it.name = c.name ∧
        it.email = c.email ∧ it.phoneNumber = c.phoneNumber ∧
        it.content = c.content ∧ it.score = m.relevanceScore ∧
        it.matchType = MatchType.llmReranked) ∧
    ((LLMReranker.rerankAndFilter candidates (LLMOutcome.ok parsed)).1.length =
      (parsed.matchList.filter (fun m =>
        m.matchesCriteria &&
          (candidates.find? (fun c => c.name = m.name)).isSome)).length) ∧
    ((LLMReranker.rerankAndFilter candidates (LLMOutcome.ok parsed)).1.Pairwise
      (fun a b => b.score ≤ a.score)) := by
  by_cases hic : candidates.isEmpty
  · have hnil : candidates = [] := List.isEmpty_iff.mp hic
    subst hnil
    refine ⟨?_, ?_, ?_⟩
    · intro it hit
      simp [LLMReranker.rerankAndFilter] at hit
    · simp [LLMReranker.rerankAndFilter]
    · simp [LLMReranker.rerankAndFilter]
  · have hout : (LLMReranker.rerankAndFilter candidates (LLMOutcome.ok parsed)).1 =
        jsSortByScoreDesc (parsed.matchList.filterMap (fun m =>
          if m.matchesCriteria then
            (candidates.find? (fun c => c.name = m.name)).map (fun c =>
              { c with score := m.relevanceScore
                       matchType := MatchType.llmReranked
                       llmReasoning := some m.reasoning
                       extractedInfo := m.extractedInfo })
          else none)) := by
      simp [LLMReranker.rerankAndFilter, hic, hvalid]
    refine ⟨?_, ?_, ?_⟩
    · intro it hit
      rw [hout, mem_jsSort] at hit
      rcases List.mem_filterMap.mp hit with ⟨m, hm, hfm⟩
      rcases hcrit : m.matchesCriteria with _ | _
      · rw [hcrit] at hfm; simp at hfm
      · rw [hcrit, if_pos rfl] at hfm
        rcases Option.map_eq_some'.mp hfm with ⟨c, hfind, hgc⟩
        have hcmem : c ∈ candidates := List.mem_of_find?_eq_some hfind
        have hcname : c.name = m.name := by
          have := List.find?_some hfind
          simpa using this
        subst hgc
        exact ⟨c, hcmem, m, hm, hcrit, hcname.symm, rfl, rfl, rfl, rfl, rfl, rfl⟩
    · rw [hout]
      rw [(jsSort_perm _).length_eq, filterMap_length_eq]
      congr 1
      refine List.filter_congr ?_
      intro m _
      rcases hcrit : m.matchesCriteria with _ | _
      · simp [hcrit]
      · simp [hcrit, Option.isSome_map]
    · rw [hout]
      exact jsSort_sorted _

/-- C3 witness: concrete re-rank of three candidates by a response keeping
"A" and "C": the output names are exactly ["A", "C"] in score order. -/
theorem claim_C3_witness :
    c3resp.schemaValid = true ∧
    (LLMReranker.rerankAndFilter c3cands (LLMOutcome.ok c3resp)).1.map
      SearchResultItem.name = ["A", "C"] ∧
    ((LLMReranker.rerankAndFilter c3cands (LLMOutcome.ok c3resp)).1.Pairwise
      (fun a b => b.score ≤ a.score)) := by
  have hvalid : c3resp.schemaValid = true := by with_unfolding_all decide
  exact ⟨hvalid, by with_unfolding_all decide,
    (claim_C3_rerank_subset c3cands c3resp hvalid).2.2⟩

theorem strHasInfix_iff (needle hay : List Char) :
    strHasInfix needle hay = true ↔ ∃ i, strStarts needle (hay.drop i) = true := by
  induction hay with
  | nil =>
    cases needle with
    | nil => simp [strHasInfix, strStarts]
    | cons a as => simp [strHasInfix, strStarts]
  | cons c rest ih =>
    simp only [strHasInfix, Bool.or_eq_true, ih]
    constructor
    · rintro (h | ⟨i, hi⟩)
      · exact ⟨0, h⟩
      · exact ⟨i + 1, hi⟩
    · rintro ⟨i, hi⟩
      cases i with
      | zero => exact Or.inl hi
      | succ j => exact Or.inr ⟨j, hi⟩

theorem regexHits_iff_spec (tokens : List String) (field : String) :
    regexHits tokens field = true ↔ 0 < specTokenOccurrences tokens field := by
  unfold regexHits specTokenOccurrences
  rw [← List.countP_eq_length_filter, List.countP_pos_iff]
  constructor
  · intro h
    rcases List.any_eq_true.mp h with ⟨t, ht, hinf⟩
    rcases (strHasInfix_iff _ _).mp hinf with ⟨i, hi⟩
    by_cases hb : i < (strLower field).data.length + 1
    · exact ⟨i, List.mem_range.mpr hb,
        List.any_eq_true.mpr ⟨t, ht, hi⟩⟩
    · push_neg at hb
      have hlen : (strLower field).data.length ≤ i := by omega
      refine ⟨(strLower field).data.length,
        List.mem_range.mpr (by omega), List.any_eq_true.mpr ⟨t, ht, ?_⟩⟩
      rw [List.drop_length]
      rwa [List.drop_eq_nil_of_le hlen] at hi
  · rintro ⟨i, _, hp⟩
    rcases List.any_eq_true.mp hp with ⟨t, ht, hi⟩
    exact List.any_eq_true.mpr ⟨t, ht, (strHasInfix_iff _ _).mpr ⟨i, hi⟩⟩

theorem regexMatchCount_cast_eq_specIndicator (tokens : List String) (field : String) :
    ((regexMatchCount tokens field : ℚ)) = specIndicator tokens field := by
  unfold regexMatchCount specIndicator
  by_cases h : regexHits tokens field = true
  · rw [if_pos h, if_pos ((regexHits_iff_spec tokens field).mp h)]
    norm_num
  · have h0 : ¬(0 < specTokenOccurrences tokens field) := fun hc =>
      h ((regexHits_iff_spec tokens field).mpr hc)
    rw [if_neg (by simpa using h), if_neg h0]
    norm_num

theorem keywordScoreDoc_eq_specIndicator (tokens : List String) (d : RawDoc) :
    keywordScoreDoc tokens d =
      min ((specIndicator tokens d.text * 1 + specIndicator tokens d.name * 2 +
        specIndicator tokens d.email * (3 / 2) + specIndicator tokens d.skills * 3 +
        specIndicator tokens d.role * (5 / 2)) / 30) 1 := by
  unfold keywordScoreDoc keywordRawScore
  rw [regexMatchCount_cast_eq_specIndicator, regexMatchCount_cast_eq_specIndicator,
    regexMatchCount_cast_eq_specIndicator, regexMatchCount_cast_eq_specIndicator,
    regexMatchCount_cast_eq_specIndicator]

theorem jsSort_filter_score_eq (l : List SearchResultItem) (q : ℚ) :
    (jsSortByScoreDesc l).filter (fun it => it.score = q) =
      l.filter (fun it => it.score = q) := by
  have hperm : ((jsSortByScoreDesc l).filter (fun it => decide (it.score = q))).Perm
      (l.filter (fun it => decide (it.score = q))) :=
    List.Perm.filter _ (jsSort_perm l)
  have hpw : (l.filter (fun it => decide (it.score = q))).Pairwise
      (fun a b => scoreDescBool a b = true) := by
    refine List.pairwise_of_forall_mem_list ?_
    intro a ha b hb
    have ha' : a.score = q := by simpa using (List.mem_filter.mp ha).2
    have hb' : b.score = q := by simpa using (List.mem_filter.mp hb).2
    simp [scoreDescBool, ha', hb']
  have hsub : (l.filter (fun it => decide (it.score = q))).Sublist
      (jsSortByScoreDesc l) :=
    List.sublist_mergeSort scoreDescBool_trans scoreDescBool_total hpw
      (List.filter_sublist l)
  have hsub2 : (l.filter (fun it => decide (it.score = q))).Sublist
      ((jsSortByScoreDesc l).filter (fun it => decide (it.score = q))) := by
    have h2 := List.Sublist.filter (fun it => decide (it.score = q)) hsub
    rw [List.filter_filter] at h2
    simpa [Bool.and_self] using h2
  exact (List.Sublist.eq_of_length hsub2 hperm.symm.length_eq).symm

/-- C9 counterexample: on a document whose text is "java java" and query
"java", the code scores `1/30` (the regex has no global flag, so the text
contributes one match), while the claimed occurrence-count formula yields
`2/30`; the two disagree. -/
theorem claim_C9_counterexample :
    (KeywordSearchEngine.search [c9doc] "java" 1).map SearchResultItem.score =
      [1 / 30] ∧
    min (specKeywordRawScore (jsSplitWs "java") c9doc / 30) 1 = 2 / 30 ∧
    ¬((1 : ℚ) / 30 = 2 / 30) := by
  refine ⟨?_, ?_, ?_⟩ <;> with_unfolding_all decide

/-- C9 amended: as the claim, but `countIn(field)` is the 0/1 indicator of
whether any query token occurs in the field (case-insensitive) — the raw
score is the weighted sum of indicators, normalized as `min(raw/30, 1)`;
results are sorted by score descending, ties keep the adapter's insertion
order (the sort is stable on equal scores), and at most `k` are returned. -/
theorem claim_C9_amended (collection : List RawDoc) (query : String) (k : Nat) :
    (KeywordSearchEngine.search collection query k).length ≤ k ∧
    (KeywordSearchEngine.search collection query k).Pairwise
      (fun a b => b.score ≤ a.score) ∧
    (∀ it ∈ KeywordSearchEngine.search collection query k, ∃ d ∈ collection,
      it.score = min ((specIndicator (jsSplitWs query) d.text * 1 +
        specIndicator (jsSplitWs query) d.name * 2 +
        specIndicator (jsSplitWs query) d.email * (3 / 2) +
        specIndicator (jsSplitWs query) d.skills * 3 +
        specIndicator (jsSplitWs query) d.role * (5 / 2)) / 30) 1) ∧
    (∀ q : ℚ,
      (jsSortByScoreDesc
        (((collection.filter (docMatchesFind (jsSplitWs query))).take (k * 2)).map
          (keywordResultOfDoc (jsSplitWs query)))).filter (fun it => it.score = q) =
      (((collection.filter (docMatchesFind (jsSplitWs query))).take (k * 2)).map
        (keywordResultOfDoc (jsSplitWs query))).filter (fun it => it.score = q)) := by
  refine ⟨List.length_take_le k _, ?_, ?_, ?_⟩
  · exact (jsSort_sorted _).sublist (List.take_sublist k _)
  · intro it hit
    rcases mem_keywordSearch hit with ⟨d, hd, rfl⟩
    exact ⟨d, hd, keywordScoreDoc_eq_specIndicator _ d⟩
  · intro q
    exact jsSort_filter_score_eq _ q

/-- C9 witness: the amended characterization instantiated at the concrete
two-occurrence document. -/
theorem claim_C9_witness :
    (KeywordSearchEngine.search [c9doc] "java" 1).length ≤ 1 ∧
    (jsSortByScoreDesc
      ((([c9doc].filter (docMatchesFind (jsSplitWs "java"))).take (1 * 2)).map
        (keywordResultOfDoc (jsSplitWs "java")))).filter
          (fun it => it.score = (1 : ℚ) / 30) =
      ((([c9doc].filter (docMatchesFind (jsSplitWs "java"))).take (1 * 2)).map
        (keywordResultOfDoc (jsSplitWs "java"))).filter
          (fun it => it.score = (1 : ℚ) / 30) :=
  ⟨(claim_C9_amended [c9doc] "java" 1).1,
    (claim_C9_amended [c9doc] "java" 1).2.2.2 ((1 : ℚ) / 30)⟩

theorem keywordSearch_bounds {collection : List RawDoc} {query : String} {k : Nat}
    {it : SearchResultItem} (h : it ∈ KeywordSearchEngine.search collection query k) :
    0 ≤ it.score ∧ it.score ≤ 1 := by
  rcases mem_keywordSearch h with ⟨d, _, rfl⟩
  exact ⟨keywordScoreDoc_nonneg _ d, keywordScoreDoc_le_one _ d⟩

theorem keywordSearch_sorted (collection : List RawDoc) (query : String) (k : Nat) :
    (KeywordSearchEngine.search collection query k).Pairwise
      (fun a b => b.score ≤ a.score) :=
  (jsSort_sorted _).sublist (List.take_sublist k _)

theorem keywordSearch_names_nodup {collection : List RawDoc} (query : String) (k : Nat)
    (h : (collection.map (fun d => jsOrS d.name "Unknown")).Nodup) :
    ((KeywordSearchEngine.search collection query k).map SearchResultItem.name).Nodup := by
  simp only [KeywordSearchEngine.search]
  have hdocs : ((((collection.filter (docMatchesFind (jsSplitWs query))).take (k * 2)).map
      (keywordResultOfDoc (jsSplitWs query))).map SearchResultItem.name).Nodup := by
    rw [List.map_map]
    have hsub : ((collection.filter (docMatchesFind (jsSplitWs query))).take (k * 2)).Sublist
        collection :=
      (List.take_sublist _ _).trans (List.filter_sublist collection)
    exact (hsub.map _).nodup h
  have hperm : ((jsSortByScoreDesc (((collection.filter (docMatchesFind (jsSplitWs query))).take
      (k * 2)).map (keywordResultOfDoc (jsSplitWs query)))).map SearchResultItem.name).Perm
      ((((collection.filter (docMatchesFind (jsSplitWs query))).take (k * 2)).map
        (keywordResultOfDoc (jsSplitWs query))).map SearchResultItem.name) :=
    (jsSort_perm _).map _
  have hnodup := hperm.nodup_iff.mpr hdocs
  rw [List.map_take]
  exact (List.take_sublist _ _).nodup hnodup

theorem vectorSearch_bounds {store : List (VectorDoc × ℚ)} {k : Nat}
    {it : SearchResultItem} (h : it ∈ VectorSearchEngine.search store k) :
    0 ≤ it.score ∧ it.score ≤ 1 := by
  unfold VectorSearchEngine.search at h
  rcases List.mem_map.mp h with ⟨dc, _, rfl⟩
  refine ⟨le_max_left 0 _, max_le zero_le_one (min_le_left 1 _)⟩

theorem normalizeVectorScore_mono {a b : ℚ} (h : b ≤ a) :
    normalizeVectorScore b ≤ normalizeVectorScore a := by
  unfold normalizeVectorScore
  exact max_le_max le_rfl (min_le_min le_rfl h)

theorem vectorSearch_sorted {store : List (VectorDoc × ℚ)} (k : Nat)
    (h : (store.map Prod.snd).Pairwise (fun a b => b ≤ a)) :
    (VectorSearchEngine.search store k).Pairwise (fun a b => b.score ≤ a.score) := by
  unfold VectorSearchEngine.search
  rw [List.pairwise_map]
  have h1 : store.Pairwise (fun a b => b.2 ≤ a.2) := by
    rw [List.pairwise_map] at h
    exact h
  exact ((h1.sublist (List.take_sublist k store)).imp
    (fun hab => normalizeVectorScore_mono hab))

theorem mergeResults_bounds (cfg : HybridSearchConfig)
    (hwv : 0 ≤ cfg.vectorWeight) (hwk : 0 ≤ cfg.keywordWeight)
    (hsum : cfg.vectorWeight + cfg.keywordWeight ≤ 1)
    {vs ks : List SearchResultItem}
    (hvb : ∀ v ∈ vs, 0 ≤ v.score ∧ v.score ≤ 1)
    (hkb : ∀ k ∈ ks, 0 ≤ k.score ∧ k.score ≤ 1)
    (hknodup : (ks.map SearchResultItem.name).Nodup) :
    ∀ it ∈ HybridSearchEngine.mergeResults cfg vs ks, 0 ≤ it.score ∧ it.score ≤ 1 := by
  intro it hit
  have hwv1 : cfg.vectorWeight ≤ 1 := by linarith
  have hwk1 : cfg.keywordWeight ≤ 1 := by linarith
  have hm1nodup : (((vs.foldl (vecMergeStep cfg) []).map SearchResultItem.name)).Nodup :=
    vecFold_names_nodup cfg vs (by simp)
  have hfnodup := kwFold_names_nodup cfg ks hm1nodup
  unfold HybridSearchEngine.mergeResults at hit
  have hfind := findByName_self_of_nodup hfnodup hit
  have hm1bound : ∀ e ∈ vs.foldl (vecMergeStep cfg) [],
      0 ≤ e.score ∧ e.score ≤ cfg.vectorWeight := by
    intro e he
    rcases mem_vecFold cfg he with h0 | ⟨v, hv, rfl⟩
    · simp at h0
    · rcases hvb v hv with ⟨h1, h2⟩
      constructor
      · exact mul_nonneg h1 hwv
      · calc v.score * cfg.vectorWeight ≤ 1 * cfg.vectorWeight := by
              exact mul_le_mul_of_nonneg_right h2 hwv
          _ = cfg.vectorWeight := one_mul _
  by_cases hks : it.name ∈ ks.map SearchResultItem.name
  · rcases List.mem_map.mp hks with ⟨k, hkmem, hkname⟩
    rcases hkb k hkmem with ⟨hk0, hk1⟩
    have h2 := kwFold_find cfg (vs.foldl (vecMergeStep cfg) []) hknodup hkmem
    rw [hkname, hfind] at h2
    have hkw : 0 ≤ k.score * cfg.keywordWeight ∧
        k.score * cfg.keywordWeight ≤ cfg.keywordWeight := by
      constructor
      · exact mul_nonneg hk0 hwk
      · calc k.score * cfg.keywordWeight ≤ 1 * cfg.keywordWeight :=
              mul_le_mul_of_nonneg_right hk1 hwk
          _ = cfg.keywordWeight := one_mul _
    rcases hm1find : findByName (vs.foldl (vecMergeStep cfg) []) it.name with _ | e
    · rw [hm1find] at h2
      have hit2 := Option.some.inj h2
      rw [hit2]
      show 0 ≤ k.score * cfg.keywordWeight ∧ k.score * cfg.keywordWeight ≤ 1
      exact ⟨hkw.1, hkw.2.trans (by linarith)⟩
    · rw [hm1find] at h2
      have he := hm1bound e (List.mem_of_find?_eq_some hm1find)
      have hit2 := Option.some.inj h2
      rw [hit2]
      show 0 ≤ e.score + k.score * cfg.keywordWeight ∧
        e.score + k.score * cfg.keywordWeight ≤ 1
      constructor
      · exact add_nonneg he.1 hkw.1
      · have := add_le_add he.2 hkw.2
        linarith
  · have h2 := kwFold_untouched cfg ks (vs.foldl (vecMergeStep cfg) []) it.name hks
    rw [hfind] at h2
    have he := hm1bound it (List.mem_of_find?_eq_some h2.symm)
    exact ⟨he.1, he.2.trans hwv1⟩

theorem attachAnalysis_score (matchList : List ResumeMatch) (r : SearchResultItem) :
    (attachAnalysis matchList r).score = r.score := by
  unfold attachAnalysis
  rcases hf : matchList.find? (fun m => m.name = r.name) with _ | mi <;> simp [hf]

theorem hybridSearch_sorted (cfg : HybridSearchConfig) (collection : List RawDoc)
    (store : List (VectorDoc × ℚ)) (query : String) (k : Nat) :
    (HybridSearchEngine.search cfg collection store query k).Pairwise
      (fun a b => b.score ≤ a.score) :=
  (jsSort_sorted _).sublist (List.take_sublist k _)

theorem hybridSearch_bounds (cfg : HybridSearchConfig)
    (hwv : 0 ≤ cfg.vectorWeight) (hwk : 0 ≤ cfg.keywordWeight)
    (hsum : cfg.vectorWeight + cfg.keywordWeight ≤ 1)
    {collection : List RawDoc} (store : List (VectorDoc × ℚ)) (query : String)
    (k : Nat) (hnames : (collection.map (fun d => jsOrS d.name "Unknown")).Nodup) :
    ∀ it ∈ HybridSearchEngine.search cfg collection store query k,
      0 ≤ it.score ∧ it.score ≤ 1 := by
  intro it hit
  simp only [HybridSearchEngine.search] at hit
  have hmem : it ∈ HybridSearchEngine.mergeResults cfg
      (VectorSearchEngine.search store (k * 3))
      (KeywordSearchEngine.search collection query (k * 3)) := by
    have h1 := List.take_subset k _ hit
    rwa [mem_jsSort] at h1
  exact mergeResults_bounds cfg hwv hwk hsum
    (fun v hv => vectorSearch_bounds hv)
    (fun kk hk => keywordSearch_bounds hk)
    (keywordSearch_names_nodup query (k * 3) hnames) it hmem

theorem rerank_preserves (candidates : List SearchResultItem)
    (llm : LLMOutcome LLMRerankResponse)
    (hb : ∀ c ∈ candidates, 0 ≤ c.score ∧ c.score ≤ 1)
    (hs : candidates.Pairwise (fun a b => b.score ≤ a.score)) :
    (∀ it ∈ (LLMReranker.rerankAndFilter candidates llm).1,
      0 ≤ it.score ∧ it.score ≤ 1) ∧
    (LLMReranker.rerankAndFilter candidates llm).1.Pairwise
      (fun a b => b.score ≤ a.score) := by
  by_cases hic : candidates.isEmpty
  · have hnil : candidates = [] := List.isEmpty_iff.mp hic
    subst hnil
    constructor
    · intro it hit
      simp [LLMReranker.rerankAndFilter] at hit
    · simp [LLMReranker.rerankAndFilter]
  · cases llm with
    | parseFailure =>
      simp only [LLMReranker.rerankAndFilter, hic, Bool.false_eq_true, if_false]
      exact ⟨hb, hs⟩
    | transportError msg =>
      simp only [LLMReranker.rerankAndFilter, hic, Bool.false_eq_true, if_false]
      exact ⟨hb, hs⟩
    | ok parsed =>
      by_cases hvalid : parsed.schemaValid
      · have hout : (LLMReranker.rerankAndFilter candidates (LLMOutcome.ok parsed)).1 =
            jsSortByScoreDesc (parsed.matchList.filterMap (fun m =>
              if m.matchesCriteria then
                (candidates.find? (fun c => c.name = m.name)).map (fun c =>
                  { c with score := m.relevanceScore
                           matchType := MatchType.llmReranked
                           llmReasoning := some m.reasoning
                           extractedInfo := m.extractedInfo })
              else none)) := by
          simp [LLMReranker.rerankAndFilter, hic, hvalid]
        rw [hout]
        constructor
        · intro it hit
          rw [mem_jsSort] at hit
          rcases List.mem_filterMap.mp hit with ⟨m, hm, hfm⟩
          rcases hcrit : m.matchesCriteria with _ | _
          · rw [hcrit] at hfm; simp at hfm
          · rw [hcrit, if_pos rfl] at hfm
            rcases Option.map_eq_some'.mp hfm with ⟨c, _, hgc⟩
            subst hgc
            have hall := List.all_eq_true.mp hvalid m hm
            simp only [Bool.and_eq_true, decide_eq_true_eq] at hall
            exact hall
        · exact jsSort_sorted _
      · simp only [LLMReranker.rerankAndFilter, hic, Bool.false_eq_true, if_false,
          hvalid]
        exact ⟨hb, hs⟩

theorem stage2_props (rerankCfg : LLMRerankConfig)
    (llm : LLMOutcome LLMRerankResponse) (topK : Nat)
    (results : List SearchResultItem)
    (hb : ∀ it ∈ results, 0 ≤ it.score ∧ it.score ≤ 1)
    (hs : results.Pairwise (fun a b => b.score ≤ a.score)) :
    (pipelineStage2 rerankCfg llm topK results).length ≤ topK ∧
    (∀ it ∈ pipelineStage2 rerankCfg llm topK results,
      0 ≤ it.score ∧ it.score ≤ 1) ∧
    (pipelineStage2 rerankCfg llm topK results).Pairwise
      (fun a b => b.score ≤ a.score) := by
  by_cases hcond : (rerankCfg.enabled && !results.isEmpty) = true
  · have hout : pipelineStage2 rerankCfg llm topK results =
        ((LLMReranker.rerankAndFilter results llm).1.take topK).map
          (attachAnalysis (LLMReranker.rerankAndFilter results llm).2.matchList) := by
      simp [pipelineStage2, hcond]
    rcases rerank_preserves results llm hb hs with ⟨hrb, hrs⟩
    rw [hout]
    refine ⟨?_, ?_, ?_⟩
    · rw [List.length_map]
      exact List.length_take_le topK _
    · intro it hit
      rcases List.mem_map.mp hit with ⟨r, hr, rfl⟩
      rw [attachAnalysis_score]
      exact hrb r (List.take_subset topK _ hr)
    · rw [List.pairwise_map]
      have h1 := hrs.sublist (List.take_sublist topK _)
      exact h1.imp (fun hab => by rw [attachAnalysis_score, attachAnalysis_score]; exact hab)
  · have hout : pipelineStage2 rerankCfg llm topK results = results.take topK := by
      simp only [pipelineStage2, hcond, Bool.false_eq_true, if_false]
    rw [hout]
    refine ⟨List.length_take_le topK _, ?_, hs.sublist (List.take_sublist topK _)⟩
    intro it hit
    exact hb it (List.take_subset topK _ hit)

/-- C2 counterexample: with the default weights 0.7/0.3 and four keyword
documents sharing the name "java" (each scoring 1/3) plus a vector hit of
score 1 for the same name, the hybrid pipeline returns a result of score
`0.7 + 4·(1/3·0.3) = 1.1 > 1`: scores are NOT always within [0, 1]. -/
theorem claim_C2_counterexample :
    (RetrievalPipeline.search c2coll c2store c1cfg c2rerankCfg
      LLMOutcome.parseFailure "java" SearchType.hybrid 4).map
        SearchResultItem.score = [11 / 10] ∧
    ¬((11 : ℚ) / 10 ≤ 1) := by
  constructor <;> with_unfolding_all decide

/-- C2 amended: for every pipeline search, `|r| ≤ k` and `r` is sorted by
score descending (the vector store's own ranking being sorted); every score
lies in [0, 1] provided additionally that the hybrid weights are nonnegative
with `w_v + w_k ≤ 1` and that document names are pairwise distinct — the
hybrid merge keys by name and adds one keyword contribution per keyword
result sharing a name, which can push a name-colliding document's combined
score above 1. -/
theorem claim_C2_amended (collection : List RawDoc) (store : List (VectorDoc × ℚ))
    (hybridCfg : HybridSearchConfig) (rerankCfg : LLMRerankConfig)
    (llm : LLMOutcome LLMRerankResponse) (query : String)
    (searchType : SearchType) (topK : Nat)
    (hwv : 0 ≤ hybridCfg.vectorWeight) (hwk : 0 ≤ hybridCfg.keywordWeight)
    (hsum : hybridCfg.vectorWeight + hybridCfg.keywordWeight ≤ 1)
    (hstore : (store.map Prod.snd).Pairwise (fun a b => b ≤ a))
    (hnames : (collection.map (fun d => jsOrS d.name "Unknown")).Nodup) :
    (RetrievalPipeline.search collection store hybridCfg rerankCfg llm query
      searchType topK).length ≤ topK ∧
    (∀ it ∈ RetrievalPipeline.search collection store hybridCfg rerankCfg llm query
      searchType topK, 0 ≤ it.score ∧ it.score ≤ 1) ∧
    (RetrievalPipeline.search collection store hybridCfg rerankCfg llm query
      searchType topK).Pairwise (fun a b => b.score ≤ a.score) := by
  have hstage1b : ∀ it ∈ pipelineStage1 collection store hybridCfg rerankCfg query
      searchType topK, 0 ≤ it.score ∧ it.score ≤ 1 := by
    cases searchType with
    | keyword =>
      intro it hit
      exact keywordSearch_bounds hit
    | vector =>
      intro it hit
      exact vectorSearch_bounds hit
    | hybrid =>
      intro it hit
      exact hybridSearch_bounds hybridCfg hwv hwk hsum store query _ hnames it hit
  have hstage1s : (pipelineStage1 collection store hybridCfg rerankCfg query
      searchType topK).Pairwise (fun a b => b.score ≤ a.score) := by
    cases searchType with
    | keyword => exact keywordSearch_sorted collection query _
    | vector => exact vectorSearch_sorted _ hstore
    | hybrid => exact hybridSearch_sorted hybridCfg collection store query _
  exact stage2_props rerankCfg llm topK _ hstage1b hstage1s

/-- C2 witness: the amended invariants instantiated at a concrete search
(one document, default weights, re-ranking disabled). -/
theorem claim_C2_witness :
    (RetrievalPipeline.search [c2doc] c2store c1cfg c2rerankCfg
      LLMOutcome.parseFailure "java" SearchType.hybrid 2).length ≤ 2 ∧
    (∀ it ∈ RetrievalPipeline.search [c2doc] c2store c1cfg c2rerankCfg
      LLMOutcome.parseFailure "java" SearchType.hybrid 2,
        0 ≤ it.score ∧ it.score ≤ 1) ∧
    (RetrievalPipeline.search [c2doc] c2store c1cfg c2rerankCfg
      LLMOutcome.parseFailure "java" SearchType.hybrid 2).Pairwise
        (fun a b => b.score ≤ a.score) :=
  claim_C2_amended [c2doc] c2store c1cfg c2rerankCfg LLMOutcome.parseFailure
    "java" SearchType.hybrid 2
    (by with_unfolding_all decide) (by with_unfolding_all decide)
    (by with_unfolding_all decide) (by simp [c2store]) (by decide)
